import Mathlib

/-!
Verification of the device telemetry & video fan-out engine of the
`data-over-remote-controller` repository.

The development shallowly embeds the Python source:

* `SIYIProtocol` — the CRC-16 wire codec of `src/siyi_controller.py`
  (`calc_crc16`, `build_packet`, `parse_packet`).
* `SIYIMK15` — the additive-sum wire codec and serial transport of
  `src/siyi_mk15.py` (`_build_packet`, `_parse_packet`, the packet loop of
  `_response_listener`, `send_command`, `_handle_response`, `disconnect`).
* `SIYIMKController` — `send_video_frame` fragmentation and
  `control_gimbal` clamping of `src/siyi_controller.py`.
* `JetsonCamera` — the bounded frame queue of `src/camera_capture.py`
  (`_capture_loop` enqueue policy, `get_latest_frame`).
* `JetsonTelemetry` — snapshot assembly and observer notification of
  `src/telemetry.py` (`_collect_telemetry`, `_telemetry_loop`).

Byte strings are modelled as `List Nat` (each element a byte value).
Python `struct.pack` field encodings are written out explicitly; where
`struct.pack` would raise (a value out of the field's range) the theorems
carry the corresponding validity hypotheses.  Machine arithmetic that the
source truncates (`& 0xFFFF`) is modelled with `% 65536`.
-/

/-- Result of a parse attempt, distinguishing the source's return paths:
`needMore` for the short-buffer returns (caller should wait for more
bytes), `badSync` for a sync-marker mismatch, `corrupt` for the
checksum-mismatch return (the branch that logs a checksum warning in the
source), `ok` for a successful parse. The Python functions collapse the
first three to `None`; `toOption` performs that collapse. -/
inductive ParseOutcome where
  | needMore : ParseOutcome
  | badSync : ParseOutcome
  | corrupt : ParseOutcome
  | ok (cmd : Nat) (payload : List Nat) : ParseOutcome
deriving DecidableEq, Repr

/-- Collapse a `ParseOutcome` to the `Optional[Tuple[int, bytes]]` the
Python parsers actually return. -/
def ParseOutcome.toOption : ParseOutcome → Option (Nat × List Nat)
  | .ok cmd payload => some (cmd, payload)
  | _ => none

/-- Python slice `l[a:b]` for `0 ≤ a ≤ b` (clamping at the ends, as in
Python). -/
def pySlice (l : List α) (a b : Nat) : List α := (l.take b).drop a

namespace SIYIProtocol

/-- CRC16 inner step: one shift of `SIYIProtocol.calc_crc16`'s bit loop
(`crc = (crc >> 1) ^ 0xA001` when the low bit is set, else `crc >>= 1`). -/
def crcStep (c : Nat) : Nat := if c % 2 = 1 then (c / 2) ^^^ 0xA001 else c / 2

/-- Process one byte of `SIYIProtocol.calc_crc16`: `crc ^= byte` followed by
eight shift steps. -/
def crcByte (c b : Nat) : Nat := crcStep^[8] (c ^^^ b)

/-- `SIYIProtocol.calc_crc16`: fold the byte step over the data with
initial value 0. -/
def calcCrc16 (data : List Nat) : Nat := data.foldl crcByte 0

/-- `SIYIProtocol.build_packet`: header
`STX1, STX2, CTRL, data_len ('<H'), seq ('<H'), cmd_id ('B')` followed by
the payload and the CRC16 over everything preceding it, low byte first
(`'<H'`).  `ctrl` and `seq` are the constants 0.  `struct.pack` requires
`cmd_id < 256` and `data.length < 65536`; theorems assume both. -/
def build_packet (cmd_id : Nat) (data : List Nat) : List Nat :=
  [0x66, 0xCC, 0, data.length % 256, data.length / 256, 0, 0, cmd_id] ++ data ++
    [calcCrc16 ([0x66, 0xCC, 0, data.length % 256, data.length / 256, 0, 0, cmd_id] ++ data) % 256,
     calcCrc16 ([0x66, 0xCC, 0, data.length % 256, data.length / 256, 0, 0, cmd_id] ++ data) / 256]

/-- `SIYIProtocol.parse_packet`, with the distinct return paths kept
apart (see `ParseOutcome`).  The source indexes `data[i]` only under the
established length checks, so `getD` with default 0 agrees with it.
`data_len` is the little-endian field `data[3:5]`, `expected_len` is
`8 + data_len + 2`, and the CRC is computed over `data[:8 + data_len]`
and compared with the little-endian field following the payload. -/
def parse_packetR (data : List Nat) : ParseOutcome :=
  if data.length < 10 then .needMore
  else if data.getD 0 0 ≠ 0x66 ∨ data.getD 1 0 ≠ 0xCC then .badSync
  else if data.length < 8 + (data.getD 3 0 + 256 * data.getD 4 0) + 2 then .needMore
  else if data.getD (8 + (data.getD 3 0 + 256 * data.getD 4 0)) 0 +
      256 * data.getD (8 + (data.getD 3 0 + 256 * data.getD 4 0) + 1) 0 ≠
      calcCrc16 (data.take (8 + (data.getD 3 0 + 256 * data.getD 4 0))) then .corrupt
  else .ok (data.getD 7 0) ((data.drop 8).take (data.getD 3 0 + 256 * data.getD 4 0))

/-- `SIYIProtocol.parse_packet` as the source returns it. -/
def parse_packet (data : List Nat) : Option (Nat × List Nat) :=
  (parse_packetR data).toOption

end SIYIProtocol

namespace SIYIMK15

/-- `SIYIMK15._build_packet`: big-endian header `0x55AA ('>H')`,
`length = len(data) + 2 ('>H')`, `command ('>H')`, then the payload and a
16-bit truncated additive checksum over every byte after the two header
bytes, big-endian.  `struct.pack` requires `command < 65536` and
`data.length + 2 < 65536`; theorems assume both. -/
def build_packet (command : Nat) (data : List Nat) : List Nat :=
  [0x55, 0xAA, (data.length + 2) / 256, (data.length + 2) % 256,
   command / 256, command % 256] ++ data ++
    [(([(data.length + 2) / 256, (data.length + 2) % 256,
        command / 256, command % 256] ++ data).sum % 65536) / 256,
     (([(data.length + 2) / 256, (data.length + 2) % 256,
        command / 256, command % 256] ++ data).sum % 65536) % 256]

/-- `SIYIMK15._parse_packet`, with the distinct return paths kept apart
(see `ParseOutcome`).  Faithful to the source: the unpacked `length`
field is never consulted; the payload is `data[6:-2]`, the received
checksum is read big-endian from the final two bytes of the buffer, and
the calculated checksum is the truncated sum over `data[2:-2]`, whatever
the declared length says. -/
def parse_packetR (data : List Nat) : ParseOutcome :=
  if data.length < 8 then .needMore
  else if data.getD 0 0 * 256 + data.getD 1 0 ≠ 0x55AA then .badSync
  else if ((data.take (data.length - 2)).drop 2).sum % 65536 ≠
      data.getD (data.length - 2) 0 * 256 + data.getD (data.length - 1) 0 then .corrupt
  else .ok (data.getD 4 0 * 256 + data.getD 5 0) ((data.take (data.length - 2)).drop 6)

/-- `SIYIMK15._parse_packet` as the source returns it. -/
def parse_packet (data : List Nat) : Option (Nat × List Nat) :=
  (parse_packetR data).toOption

end SIYIMK15

section RoundTrip

open SIYIProtocol in
/-- Parsing the exact bytes built by `SIYIProtocol.build_packet` follows
the success path and recovers the command id and payload. -/
theorem siyi_round_tripR (cmd_id : Nat) (data : List Nat)
    (hlen : data.length < 65536) :
    SIYIProtocol.parse_packetR (SIYIProtocol.build_packet cmd_id data) = .ok cmd_id data := by
  obtain ⟨crc, hcrc⟩ : ∃ c,
      calcCrc16 ([0x66, 0xCC, 0, data.length % 256, data.length / 256, 0, 0, cmd_id] ++ data) =
        c := ⟨_, rfl⟩
  have hX : SIYIProtocol.build_packet cmd_id data =
      [0x66, 0xCC, 0, data.length % 256, data.length / 256, 0, 0, cmd_id] ++
        (data ++ [crc % 256, crc / 256]) := by
    rw [SIYIProtocol.build_packet, hcrc, List.append_assoc]
  rw [hX]
  have hlenX : ([0x66, 0xCC, 0, data.length % 256, data.length / 256, 0, 0, cmd_id] ++
      (data ++ [crc % 256, crc / 256])).length = data.length + 10 := by
    simp
  unfold SIYIProtocol.parse_packetR
  have hg3 : ([0x66, 0xCC, 0, data.length % 256, data.length / 256, 0, 0, cmd_id] ++
      (data ++ [crc % 256, crc / 256])).getD 3 0 = data.length % 256 := rfl
  have hg4 : ([0x66, 0xCC, 0, data.length % 256, data.length / 256, 0, 0, cmd_id] ++
      (data ++ [crc % 256, crc / 256])).getD 4 0 = data.length / 256 := rfl
  rw [hg3, hg4]
  have hdl : data.length % 256 + 256 * (data.length / 256) = data.length := by omega
  rw [hdl]
  rw [if_neg (by rw [hlenX]; omega)]
  have hg0 : ([0x66, 0xCC, 0, data.length % 256, data.length / 256, 0, 0, cmd_id] ++
      (data ++ [crc % 256, crc / 256])).getD 0 0 = 0x66 := rfl
  have hg1 : ([0x66, 0xCC, 0, data.length % 256, data.length / 256, 0, 0, cmd_id] ++
      (data ++ [crc % 256, crc / 256])).getD 1 0 = 0xCC := rfl
  rw [if_neg (fun h => h.elim (fun h' => h' hg0) (fun h' => h' hg1))]
  rw [if_neg (by rw [hlenX]; omega)]
  have h8 : 8 + data.length = data.length + 8 := by omega
  rw [h8]
  have hc0 : ([0x66, 0xCC, 0, data.length % 256, data.length / 256, 0, 0, cmd_id] ++
      (data ++ [crc % 256, crc / 256])).getD (data.length + 8) 0 = crc % 256 := by
    show (data ++ [crc % 256, crc / 256]).getD data.length 0 = crc % 256
    rw [List.getD_append_right _ _ _ _ (le_refl _)]
    simp
  have hc1 : ([0x66, 0xCC, 0, data.length % 256, data.length / 256, 0, 0, cmd_id] ++
      (data ++ [crc % 256, crc / 256])).getD (data.length + 8 + 1) 0 = crc / 256 := by
    show (data ++ [crc % 256, crc / 256]).getD (data.length + 1) 0 = crc / 256
    rw [List.getD_append_right _ _ _ _ (by omega)]
    have h1 : data.length + 1 - data.length = 1 := by omega
    rw [h1]
    simp
  have htk : ([0x66, 0xCC, 0, data.length % 256, data.length / 256, 0, 0, cmd_id] ++
      (data ++ [crc % 256, crc / 256])).take (data.length + 8) =
      [0x66, 0xCC, 0, data.length % 256, data.length / 256, 0, 0, cmd_id] ++ data := by
    show 0x66 :: 0xCC :: 0 :: (data.length % 256) :: (data.length / 256) :: 0 :: 0 :: cmd_id ::
        ((data ++ [crc % 256, crc / 256]).take data.length) =
      [0x66, 0xCC, 0, data.length % 256, data.length / 256, 0, 0, cmd_id] ++ data
    rw [List.take_left]
    rfl
  rw [hc0, hc1, htk, hcrc]
  have hrc : crc % 256 + 256 * (crc / 256) = crc := by omega
  rw [hrc]
  rw [if_neg (fun h => h rfl)]
  have hg7 : ([0x66, 0xCC, 0, data.length % 256, data.length / 256, 0, 0, cmd_id] ++
      (data ++ [crc % 256, crc / 256])).getD 7 0 = cmd_id := rfl
  have hpay : (([0x66, 0xCC, 0, data.length % 256, data.length / 256, 0, 0, cmd_id] ++
      (data ++ [crc % 256, crc / 256])).drop 8).take data.length = data := by
    show (data ++ [crc % 256, crc / 256]).take data.length = data
    exact List.take_left data _
  rw [hg7, hpay]

open SIYIProtocol in
/-- Length of a built CRC-16 packet: header (8) + payload + CRC (2). -/
theorem siyi_build_length (cmd_id : Nat) (data : List Nat) :
    (SIYIProtocol.build_packet cmd_id data).length = 8 + data.length + 2 := by
  rw [SIYIProtocol.build_packet]
  simp
  omega

open SIYIMK15 in
/-- Parsing the exact bytes built by `SIYIMK15._build_packet` follows the
success path and recovers the command and payload. -/
theorem mk15_round_tripR (command : Nat) (data : List Nat)
    (hcmd : command < 65536) (hlen : data.length + 2 < 65536) :
    SIYIMK15.parse_packetR (SIYIMK15.build_packet command data) = .ok command data := by
  obtain ⟨chk, hchk⟩ : ∃ c,
      ([(data.length + 2) / 256, (data.length + 2) % 256,
        command / 256, command % 256] ++ data).sum % 65536 = c := ⟨_, rfl⟩
  have hX : SIYIMK15.build_packet command data =
      [0x55, 0xAA, (data.length + 2) / 256, (data.length + 2) % 256,
       command / 256, command % 256] ++ (data ++ [chk / 256, chk % 256]) := by
    rw [SIYIMK15.build_packet, hchk, List.append_assoc]
  rw [hX]
  have hlenX : ([0x55, 0xAA, (data.length + 2) / 256, (data.length + 2) % 256,
      command / 256, command % 256] ++ (data ++ [chk / 256, chk % 256])).length =
      data.length + 8 := by
    simp
  unfold SIYIMK15.parse_packetR
  rw [hlenX]
  rw [if_neg (by omega)]
  have hg0 : ([0x55, 0xAA, (data.length + 2) / 256, (data.length + 2) % 256,
      command / 256, command % 256] ++ (data ++ [chk / 256, chk % 256])).getD 0 0 = 0x55 := rfl
  have hg1 : ([0x55, 0xAA, (data.length + 2) / 256, (data.length + 2) % 256,
      command / 256, command % 256] ++ (data ++ [chk / 256, chk % 256])).getD 1 0 = 0xAA := rfl
  rw [hg0, hg1]
  rw [if_neg (by norm_num)]
  have hs2 : data.length + 8 - 2 = data.length + 6 := by omega
  have hs1 : data.length + 8 - 1 = data.length + 7 := by omega
  rw [hs2, hs1]
  have htk : ([0x55, 0xAA, (data.length + 2) / 256, (data.length + 2) % 256,
      command / 256, command % 256] ++ (data ++ [chk / 256, chk % 256])).take
        (data.length + 6) =
      [0x55, 0xAA, (data.length + 2) / 256, (data.length + 2) % 256,
       command / 256, command % 256] ++ data := by
    show 0x55 :: 0xAA :: ((data.length + 2) / 256) :: ((data.length + 2) % 256) ::
        (command / 256) :: (command % 256) ::
        ((data ++ [chk / 256, chk % 256]).take data.length) =
      [0x55, 0xAA, (data.length + 2) / 256, (data.length + 2) % 256,
       command / 256, command % 256] ++ data
    rw [List.take_left]
    rfl
  rw [htk]
  have hsum : (([0x55, 0xAA, (data.length + 2) / 256, (data.length + 2) % 256,
      command / 256, command % 256] ++ data).drop 2).sum % 65536 = chk := by
    show ([(data.length + 2) / 256, (data.length + 2) % 256,
        command / 256, command % 256] ++ data).sum % 65536 = chk
    exact hchk
  rw [hsum]
  have hr0 : ([0x55, 0xAA, (data.length + 2) / 256, (data.length + 2) % 256,
      command / 256, command % 256] ++ (data ++ [chk / 256, chk % 256])).getD
        (data.length + 6) 0 = chk / 256 := by
    show (data ++ [chk / 256, chk % 256]).getD data.length 0 = chk / 256
    rw [List.getD_append_right _ _ _ _ (le_refl _)]
    simp
  have hr1 : ([0x55, 0xAA, (data.length + 2) / 256, (data.length + 2) % 256,
      command / 256, command % 256] ++ (data ++ [chk / 256, chk % 256])).getD
        (data.length + 7) 0 = chk % 256 := by
    show (data ++ [chk / 256, chk % 256]).getD (data.length + 1) 0 = chk % 256
    rw [List.getD_append_right _ _ _ _ (by omega)]
    have h1 : data.length + 1 - data.length = 1 := by omega
    rw [h1]
    simp
  rw [hr0, hr1]
  have hrecv : chk / 256 * 256 + chk % 256 = chk := by omega
  rw [hrecv]
  rw [if_neg (fun h => h rfl)]
  have hg4 : ([0x55, 0xAA, (data.length + 2) / 256, (data.length + 2) % 256,
      command / 256, command % 256] ++ (data ++ [chk / 256, chk % 256])).getD 4 0 =
      command / 256 := rfl
  have hg5 : ([0x55, 0xAA, (data.length + 2) / 256, (data.length + 2) % 256,
      command / 256, command % 256] ++ (data ++ [chk / 256, chk % 256])).getD 5 0 =
      command % 256 := rfl
  rw [hg4, hg5]
  have hcm : command / 256 * 256 + command % 256 = command := by omega
  rw [hcm]
  have hdp : (([0x55, 0xAA, (data.length + 2) / 256, (data.length + 2) % 256,
      command / 256, command % 256] ++ data).drop 6) = data := rfl
  rw [hdp]

open SIYIMK15 in
/-- Length of a built additive-sum packet: 8 + payload, matching the
`buffer[8 + len(data):]` consumption in `_response_listener`. -/
theorem mk15_build_length (command : Nat) (data : List Nat) :
    (SIYIMK15.build_packet command data).length = 8 + data.length := by
  rw [SIYIMK15.build_packet]
  simp
  omega

end RoundTrip

/-- C1: Framing round-trip for both wire-protocol variants.  For every
command id and payload forming a valid packet (fields within the
`struct.pack` ranges, payload made of bytes), decoding the exact byte
string produced by encoding yields back the same command id and payload,
and the packet length equals the full consumed length (header + payload
+ checksum for the CRC-16 codec, `8 + len(payload)` — the amount the
receive loop removes — for the additive-sum codec). -/
theorem c1_framing_round_trip :
    (∀ cmd_id data, cmd_id < 256 → List.length data < 65536 → (∀ x ∈ data, x < 256) →
      SIYIProtocol.parse_packet (SIYIProtocol.build_packet cmd_id data) = some (cmd_id, data) ∧
      (SIYIProtocol.build_packet cmd_id data).length = 8 + data.length + 2) ∧
    (∀ command data, command < 65536 → List.length data + 2 < 65536 → (∀ x ∈ data, x < 256) →
      SIYIMK15.parse_packet (SIYIMK15.build_packet command data) = some (command, data) ∧
      (SIYIMK15.build_packet command data).length = 8 + data.length) := by
  constructor
  · intro cmd_id data _ hlen _
    refine ⟨?_, siyi_build_length cmd_id data⟩
    show (SIYIProtocol.parse_packetR _).toOption = _
    rw [siyi_round_tripR cmd_id data hlen]
    rfl
  · intro command data hcmd hlen _
    refine ⟨?_, mk15_build_length command data⟩
    show (SIYIMK15.parse_packetR _).toOption = _
    rw [mk15_round_tripR command data hcmd hlen]
    rfl

/-- Witness for C1 at concrete inputs: a CRC-16 packet with command 7 and
payload `[1, 2, 3]`, and an additive-sum packet with command 2 and
payload `[9]`. -/
theorem c1_framing_round_trip_witness :
    SIYIProtocol.parse_packet (SIYIProtocol.build_packet 7 [1, 2, 3]) = some (7, [1, 2, 3]) ∧
    SIYIMK15.parse_packet (SIYIMK15.build_packet 2 [9]) = some (2, [9]) :=
  ⟨(c1_framing_round_trip.1 7 [1, 2, 3] (by norm_num) (by simp) (by decide)).1,
   (c1_framing_round_trip.2 2 [9] (by norm_num) (by simp) (by decide)).1⟩

namespace SIYIMK15

/-- Scan helper for `buffer.find(b'\x55\xAA', 1)` in
`SIYIMK15._response_listener`: the least index `≥ k` (over the suffix
given) whose byte pair is `0x55, 0xAA`, or `none`. -/
def findSyncAux : List Nat → Nat → Option Nat
  | a :: b :: rest, k =>
    if a = 0x55 ∧ b = 0xAA then some k else findSyncAux (b :: rest) (k + 1)
  | _, _ => none

/-- `buffer.find(b'\x55\xAA', 1)`: the first sync-marker position at
index 1 or later (`none` models Python's `-1`). -/
def find_header (buffer : List Nat) : Option Nat := findSyncAux (buffer.drop 1) 1

/-- Fuel-indexed model of the inner `while len(buffer) >= 8` loop of
`SIYIMK15._response_listener`, returning the `(command, data)` pairs
passed to `_handle_response` in order.  On a successful parse the loop
removes `8 + len(data)` bytes; on a failed parse it scans for the next
sync marker from index 1 and advances to it, or breaks if there is none.
Every iteration shortens the buffer, so fuel `buffer.length` is enough
(`process` below). -/
def processFuel : Nat → List Nat → List (Nat × List Nat)
  | 0, _ => []
  | fuel + 1, buffer =>
    if 8 ≤ buffer.length then
      match parse_packet buffer with
      | some (command, data) =>
          (command, data) :: processFuel fuel (buffer.drop (8 + data.length))
      | none =>
        match find_header buffer with
        | some header_pos =>
            if 0 < header_pos then processFuel fuel (buffer.drop header_pos) else []
        | none => []
    else []

/-- One batch of the `_response_listener` packet loop over a buffer. -/
def process (buffer : List Nat) : List (Nat × List Nat) :=
  processFuel buffer.length buffer

end SIYIMK15

section Mk15Lemmas

/-- Parsing any buffer of shape sync marker, four header bytes, middle
section and two trailing bytes: the checksum compares the truncated sum
over everything between the marker and the trailer against the trailer,
and on success the command is read from the 4th/5th bytes and the
payload is the middle section. -/
theorem mk15_parseR_shape (b2 b3 b4 b5 t0 t1 : Nat) (mid : List Nat) :
    SIYIMK15.parse_packetR ([0x55, 0xAA, b2, b3, b4, b5] ++ (mid ++ [t0, t1])) =
      if ([b2, b3, b4, b5] ++ mid).sum % 65536 ≠ t0 * 256 + t1 then .corrupt
      else .ok (b4 * 256 + b5) mid := by
  have hlenX : ([0x55, 0xAA, b2, b3, b4, b5] ++ (mid ++ [t0, t1])).length = mid.length + 8 := by
    simp
  unfold SIYIMK15.parse_packetR
  rw [hlenX]
  rw [if_neg (by omega)]
  have hg0 : ([0x55, 0xAA, b2, b3, b4, b5] ++ (mid ++ [t0, t1])).getD 0 0 = 0x55 := rfl
  have hg1 : ([0x55, 0xAA, b2, b3, b4, b5] ++ (mid ++ [t0, t1])).getD 1 0 = 0xAA := rfl
  rw [hg0, hg1]
  rw [if_neg (by norm_num)]
  have hs2 : mid.length + 8 - 2 = mid.length + 6 := by omega
  have hs1 : mid.length + 8 - 1 = mid.length + 7 := by omega
  rw [hs2, hs1]
  have htk : ([0x55, 0xAA, b2, b3, b4, b5] ++ (mid ++ [t0, t1])).take (mid.length + 6) =
      [0x55, 0xAA, b2, b3, b4, b5] ++ mid := by
    show 0x55 :: 0xAA :: b2 :: b3 :: b4 :: b5 :: ((mid ++ [t0, t1]).take mid.length) =
      [0x55, 0xAA, b2, b3, b4, b5] ++ mid
    rw [List.take_left]
    rfl
  rw [htk]
  have hdrop2 : ([0x55, 0xAA, b2, b3, b4, b5] ++ mid).drop 2 = [b2, b3, b4, b5] ++ mid := rfl
  rw [hdrop2]
  have hr0 : ([0x55, 0xAA, b2, b3, b4, b5] ++ (mid ++ [t0, t1])).getD (mid.length + 6) 0 =
      t0 := by
    show (mid ++ [t0, t1]).getD mid.length 0 = t0
    rw [List.getD_append_right _ _ _ _ (le_refl _)]
    simp
  have hr1 : ([0x55, 0xAA, b2, b3, b4, b5] ++ (mid ++ [t0, t1])).getD (mid.length + 7) 0 =
      t1 := by
    show (mid ++ [t0, t1]).getD (mid.length + 1) 0 = t1
    rw [List.getD_append_right _ _ _ _ (by omega)]
    have h1 : mid.length + 1 - mid.length = 1 := by omega
    rw [h1]
    simp
  rw [hr0, hr1]
  have hg4 : ([0x55, 0xAA, b2, b3, b4, b5] ++ (mid ++ [t0, t1])).getD 4 0 = b4 := rfl
  have hg5 : ([0x55, 0xAA, b2, b3, b4, b5] ++ (mid ++ [t0, t1])).getD 5 0 = b5 := rfl
  rw [hg4, hg5]
  have hdrop6 : ([0x55, 0xAA, b2, b3, b4, b5] ++ mid).drop 6 = mid := rfl
  rw [hdrop6]

/-- Sum of a list after replacing one element: the new sum plus the old
element equals the old sum plus the new element. -/
theorem sum_set_add (l : List Nat) (i v : Nat) (h : i < l.length) :
    (l.set i v).sum + l.getD i 0 = l.sum + v := by
  induction l generalizing i with
  | nil => simp at h
  | cons a t ih =>
    cases i with
    | zero => simp [List.set]; omega
    | succ n =>
      have hn : n < t.length := by simpa using h
      have := ih n hn
      simp [List.set, List.getD_cons_succ] at this ⊢
      omega

/-- Changing one payload byte of a built additive-sum packet to a
different byte value makes `_parse_packet` fail with a checksum
mismatch (the `corrupt` return path). -/
theorem mk15_corrupt_parse (command : Nat) (data : List Nat) (i v : Nat)
    (hv : v < 256) (hbytes : ∀ x ∈ data, x < 256) (hi : i < data.length)
    (hne : v ≠ data.getD i 0) :
    SIYIMK15.parse_packetR ((SIYIMK15.build_packet command data).set (6 + i) v) = .corrupt := by
  obtain ⟨chk, hchk⟩ : ∃ c,
      ([(data.length + 2) / 256, (data.length + 2) % 256,
        command / 256, command % 256] ++ data).sum % 65536 = c := ⟨_, rfl⟩
  have hX : SIYIMK15.build_packet command data =
      [0x55, 0xAA, (data.length + 2) / 256, (data.length + 2) % 256,
       command / 256, command % 256] ++ (data ++ [chk / 256, chk % 256]) := by
    rw [SIYIMK15.build_packet, hchk, List.append_assoc]
  have hset : (SIYIMK15.build_packet command data).set (6 + i) v =
      [0x55, 0xAA, (data.length + 2) / 256, (data.length + 2) % 256,
       command / 256, command % 256] ++ (data.set i v ++ [chk / 256, chk % 256]) := by
    rw [hX, List.set_append]
    rw [if_neg (by simp)]
    have h6 : 6 + i - ([0x55, 0xAA, (data.length + 2) / 256, (data.length + 2) % 256,
        command / 256, command % 256] : List Nat).length = i := by simp
    rw [h6, List.set_append]
    rw [if_pos hi]
  rw [hset]
  have hlenset : (data.set i v).length = data.length := List.length_set data i v
  have hshape := mk15_parseR_shape ((data.length + 2) / 256) ((data.length + 2) % 256)
      (command / 256) (command % 256) (chk / 256) (chk % 256) (data.set i v)
  rw [hshape]
  rw [if_pos ?_]
  have hold : data.getD i 0 < 256 := by
    rw [List.getD_eq_getElem data 0 hi]
    exact hbytes _ (List.getElem_mem hi)
  have hsums : ([(data.length + 2) / 256, (data.length + 2) % 256,
        command / 256, command % 256] ++ data.set i v).sum + data.getD i 0 =
      ([(data.length + 2) / 256, (data.length + 2) % 256,
        command / 256, command % 256] ++ data).sum + v := by
    rw [List.sum_append, List.sum_append]
    have := sum_set_add data i v hi
    omega
  have hrecv : chk / 256 * 256 + chk % 256 = chk := by omega
  rw [hrecv]
  intro hmod
  omega

end Mk15Lemmas

section Resync

/-- Positions returned by the sync scan are at least the start index. -/
theorem findSyncAux_ge (l : List Nat) (k p : Nat)
    (h : SIYIMK15.findSyncAux l k = some p) : k ≤ p := by
  induction l generalizing k with
  | nil => simp [SIYIMK15.findSyncAux] at h
  | cons a t ih =>
    cases t with
    | nil => simp [SIYIMK15.findSyncAux] at h
    | cons b rest =>
      rw [SIYIMK15.findSyncAux] at h
      by_cases hab : a = 0x55 ∧ b = 0xAA
      · rw [if_pos hab] at h
        exact Nat.le_of_eq (Option.some.inj h)
      · rw [if_neg hab] at h
        have := ih (k + 1) h
        omega

/-- If a sync marker occurs right after a prefix, the scan finds some
position no later than the marker. -/
theorem findSyncAux_found (l₁ l₂ : List Nat) (k : Nat) :
    ∃ p, SIYIMK15.findSyncAux (l₁ ++ 0x55 :: 0xAA :: l₂) k = some p ∧ p ≤ k + l₁.length := by
  induction l₁ generalizing k with
  | nil =>
    refine ⟨k, ?_, by omega⟩
    rw [List.nil_append, SIYIMK15.findSyncAux, if_pos ⟨rfl, rfl⟩]
  | cons a t ih =>
    cases t with
    | nil =>
      rw [List.cons_append, List.nil_append, SIYIMK15.findSyncAux]
      rw [if_neg (by intro h; exact absurd h.2 (by norm_num))]
      obtain ⟨p, hp, hle⟩ := ih (k + 1)
      rw [List.nil_append] at hp
      exact ⟨p, hp, by simp at hle ⊢; omega⟩
    | cons b t' =>
      rw [List.cons_append, List.cons_append, SIYIMK15.findSyncAux]
      by_cases hab : a = 0x55 ∧ b = 0xAA
      · rw [if_pos hab]
        exact ⟨k, rfl, by omega⟩
      · rw [if_neg hab]
        obtain ⟨p, hp, hle⟩ := ih (k + 1)
        rw [List.cons_append] at hp
        refine ⟨p, hp, ?_⟩
        simp at hle ⊢
        omega

/-- The process loop on the empty buffer yields nothing. -/
theorem processFuel_nil (fuel : Nat) : SIYIMK15.processFuel fuel [] = [] := by
  cases fuel with
  | zero => rfl
  | succ f => rw [SIYIMK15.processFuel]; simp

/-- The process loop on exactly one well-parsing packet handles exactly
that packet. -/
theorem processFuel_single (buffer : List Nat) (command : Nat) (data : List Nat) (fuel : Nat)
    (hp : SIYIMK15.parse_packet buffer = some (command, data))
    (hl : buffer.length = 8 + data.length) (hf : 1 ≤ fuel) :
    SIYIMK15.processFuel fuel buffer = [(command, data)] := by
  obtain ⟨f, rfl⟩ : ∃ f, fuel = f + 1 := ⟨fuel - 1, by omega⟩
  rw [SIYIMK15.processFuel, if_pos (by omega), hp]
  have hdrop : buffer.drop (8 + data.length) = [] := by
    rw [← hl, List.drop_length]
  show (command, data) :: SIYIMK15.processFuel f (buffer.drop (8 + data.length)) =
    [(command, data)]
  rw [hdrop, processFuel_nil]

/-- Resynchronization: a buffer of junk (at least one byte, on which
every scan-position parse fails) followed by one well-parsing packet
that starts with the sync marker is processed into exactly that packet:
the loop repeatedly fails to parse, scans forward to the next marker
candidate, and eventually reaches and handles the trailing packet. -/
theorem processFuel_resync (command : Nat) (data pkt2 : List Nat)
    (hp : SIYIMK15.parse_packet pkt2 = some (command, data))
    (hl : pkt2.length = 8 + data.length)
    (hsync : ∃ rest, pkt2 = 0x55 :: 0xAA :: rest) :
    ∀ fuel junk, 1 ≤ junk.length → junk.length + 1 ≤ fuel →
      (∀ k < junk.length, SIYIMK15.parse_packet (junk.drop k ++ pkt2) = none) →
      SIYIMK15.processFuel fuel (junk ++ pkt2) = [(command, data)] := by
  intro fuel
  induction fuel with
  | zero => intro junk h1 h2 _; omega
  | succ f ih =>
    intro junk h1 hfuel hnone
    have h8 : 8 ≤ (junk ++ pkt2).length := by
      rw [List.length_append, hl]; omega
    have hn : SIYIMK15.parse_packet (junk ++ pkt2) = none := by
      have := hnone 0 (by omega)
      rwa [List.drop_zero] at this
    obtain ⟨rest, hrest⟩ := hsync
    have hdrop1 : (junk ++ pkt2).drop 1 = junk.drop 1 ++ pkt2 :=
      List.drop_append_of_le_length (by omega)
    obtain ⟨p, hfind, hple⟩ : ∃ p, SIYIMK15.find_header (junk ++ pkt2) = some p ∧
        p ≤ junk.length := by
      obtain ⟨p, hp', hle⟩ := findSyncAux_found (junk.drop 1) rest 1
      refine ⟨p, ?_, ?_⟩
      · rw [SIYIMK15.find_header, hdrop1, hrest]
        exact hp'
      · have : (junk.drop 1).length = junk.length - 1 := by simp
        omega
    have hpge : 1 ≤ p := findSyncAux_ge _ _ _ (by
      rw [SIYIMK15.find_header, hdrop1, hrest] at hfind
      exact hfind)
    rw [SIYIMK15.processFuel, if_pos h8, hn, hfind]
    show (if 0 < p then SIYIMK15.processFuel f ((junk ++ pkt2).drop p) else []) =
      [(command, data)]
    rw [if_pos (by omega)]
    rcases Nat.lt_or_ge p junk.length with hplt | hpeq
    · have hdropp : (junk ++ pkt2).drop p = junk.drop p ++ pkt2 :=
        List.drop_append_of_le_length (by omega)
      rw [hdropp]
      refine ih (junk.drop p) (by simp; omega) (by simp; omega) ?_
      intro k hk
      rw [List.drop_drop]
      refine hnone (p + k) ?_
      simp at hk
      omega
    · have hpeq' : p = junk.length := by omega
      have hdropp : (junk ++ pkt2).drop p = pkt2 := by
        rw [hpeq']
        exact List.drop_left junk pkt2
      rw [hdropp]
      exact processFuel_single pkt2 command data f hp hl (by omega)

end Resync

/-- C2 (amended): flipping one payload byte of a built additive-sum
packet makes `_parse_packet` on that packet report a checksum mismatch;
and, provided the whole-buffer parse fails at the initial position and at
every scan offset inside the corrupted packet (the listener parses the
accumulated buffer as a whole, checking the checksum against the final
two bytes of the buffer), the receive-loop resynchronization reaches the
second packet and decodes exactly it. -/
theorem c2_corruption_resync (cmd1 cmd2 i v : Nat) (d1 d2 : List Nat)
    (h1c : cmd1 < 65536) (h1n : d1.length + 2 < 65536) (h1b : ∀ x ∈ d1, x < 256)
    (h2c : cmd2 < 65536) (h2n : d2.length + 2 < 65536)
    (hi : i < d1.length) (hv : v < 256) (hne : v ≠ d1.getD i 0) :
    SIYIMK15.parse_packetR ((SIYIMK15.build_packet cmd1 d1).set (6 + i) v) = .corrupt ∧
    ((∀ k < ((SIYIMK15.build_packet cmd1 d1).set (6 + i) v).length,
        SIYIMK15.parse_packet (((SIYIMK15.build_packet cmd1 d1).set (6 + i) v).drop k ++
          SIYIMK15.build_packet cmd2 d2) = none) →
      SIYIMK15.process ((SIYIMK15.build_packet cmd1 d1).set (6 + i) v ++
        SIYIMK15.build_packet cmd2 d2) = [(cmd2, d2)]) := by
  refine ⟨mk15_corrupt_parse cmd1 d1 i v hv h1b hi hne, ?_⟩
  intro hnone
  have hjunklen : ((SIYIMK15.build_packet cmd1 d1).set (6 + i) v).length = 8 + d1.length := by
    rw [List.length_set, mk15_build_length]
  have hp2 : SIYIMK15.parse_packet (SIYIMK15.build_packet cmd2 d2) = some (cmd2, d2) := by
    show (SIYIMK15.parse_packetR _).toOption = _
    rw [mk15_round_tripR cmd2 d2 h2c h2n]
    rfl
  have hl2 : (SIYIMK15.build_packet cmd2 d2).length = 8 + d2.length :=
    mk15_build_length cmd2 d2
  have hsync : ∃ rest, SIYIMK15.build_packet cmd2 d2 = 0x55 :: 0xAA :: rest := ⟨_, rfl⟩
  rw [SIYIMK15.process]
  refine processFuel_resync cmd2 d2 (SIYIMK15.build_packet cmd2 d2) hp2 hl2 hsync _ _
    (by rw [hjunklen]; omega) ?_ (by rwa [hjunklen] at hnone ⊢)
  rw [List.length_append, hjunklen, hl2]
  omega

/-- Witness for C2 at a concrete input: the corrupted packet is
`_build_packet(1, b'\x07')` with its only payload byte (offset 6)
changed from 7 to 8, followed by the valid packet `_build_packet(2, b'')`;
the corrupted packet alone parses as a checksum mismatch and the
listener loop recovers exactly the second packet. -/
theorem c2_corruption_resync_witness :
    SIYIMK15.parse_packetR ((SIYIMK15.build_packet 1 [7]).set (6 + 0) 8) = .corrupt ∧
    SIYIMK15.process ((SIYIMK15.build_packet 1 [7]).set (6 + 0) 8 ++
      SIYIMK15.build_packet 2 []) = [(2, [])] :=
  ⟨(c2_corruption_resync 1 2 0 8 [7] [] (by norm_num) (by norm_num) (by decide)
      (by norm_num) (by norm_num) (by norm_num) (by norm_num) (by decide)).1,
   (c2_corruption_resync 1 2 0 8 [7] [] (by norm_num) (by norm_num) (by decide)
      (by norm_num) (by norm_num) (by norm_num) (by norm_num) (by decide)).2 (by decide)⟩

set_option maxRecDepth 100000 in
/-- Counterexample to C2 as stated.  Take the valid first packet
`_build_packet(16, b'\xff' * 254 + b'\x00')`, flip its last payload byte
(buffer offset `6 + 254 = 260`) from 0 to 220, and follow it with the
valid second packet `_build_packet(2, b'')`.  The listener's parse of the
accumulated two-packet buffer checks the additive checksum of
`buffer[2:-2]` against the final two bytes of the *second* packet, and
with this corruption the sums coincide: decode does **not** return None
(no checksum mismatch is reported), the spurious parse consumes the
whole buffer, and the second packet is never decoded. -/
theorem c2_counterexample :
    SIYIMK15.parse_packet (SIYIMK15.build_packet 16 (List.replicate 254 255 ++ [0])) =
      some (16, List.replicate 254 255 ++ [0]) ∧
    SIYIMK15.parse_packet
      ((SIYIMK15.build_packet 16 (List.replicate 254 255 ++ [0])).set 260 220 ++
        SIYIMK15.build_packet 2 []) ≠ none ∧
    (2, ([] : List Nat)) ∉ SIYIMK15.process
      ((SIYIMK15.build_packet 16 (List.replicate 254 255 ++ [0])).set 260 220 ++
        SIYIMK15.build_packet 2 []) := by
  decide

/-- C3 (amended): for the CRC-16 codec, a buffer shorter than the
10-byte minimum, or one with a correct sync marker but shorter than the
total length implied by the declared payload length, takes the
need-more-data return path (never the checksum-mismatch path).  For the
additive-sum codec only buffers shorter than 8 bytes are treated as
need-more-data: `_parse_packet` never consults the declared length
field (see `c3_counterexample`). -/
theorem c3_partial_buffer_non_consumption :
    (∀ b : List Nat, b.length < 10 → SIYIProtocol.parse_packetR b = .needMore) ∧
    (∀ b : List Nat, 10 ≤ b.length → b.getD 0 0 = 0x66 → b.getD 1 0 = 0xCC →
      b.length < 8 + (b.getD 3 0 + 256 * b.getD 4 0) + 2 →
      SIYIProtocol.parse_packetR b = .needMore) ∧
    (∀ b : List Nat, b.length < 8 → SIYIMK15.parse_packetR b = .needMore) := by
  refine ⟨?_, ?_, ?_⟩
  · intro b h
    unfold SIYIProtocol.parse_packetR
    rw [if_pos h]
  · intro b hlen h0 h1 hshort
    unfold SIYIProtocol.parse_packetR
    rw [if_neg (by omega)]
    rw [if_neg (by rw [h0, h1]; simp)]
    rw [if_pos hshort]
  · intro b h
    unfold SIYIMK15.parse_packetR
    rw [if_pos h]

/-- Witness for C3: a 3-byte fragment, a 10-byte buffer whose header
declares a 5-byte payload (total 15), and a 3-byte additive-sum
fragment all take the need-more-data path. -/
theorem c3_partial_buffer_non_consumption_witness :
    SIYIProtocol.parse_packetR [0x66, 0xCC, 0] = .needMore ∧
    SIYIProtocol.parse_packetR [0x66, 0xCC, 0, 5, 0, 0, 0, 1, 0, 0] = .needMore ∧
    SIYIMK15.parse_packetR [0x55, 0xAA, 0] = .needMore :=
  ⟨c3_partial_buffer_non_consumption.1 _ (by decide),
   c3_partial_buffer_non_consumption.2.1 _ (by decide) (by decide) (by decide) (by decide),
   c3_partial_buffer_non_consumption.2.2 _ (by decide)⟩

/-- Counterexample to C3 as stated.  `_build_packet(2, payload)` with the
10-byte payload `[0, 14, 0, 0, 0, 0, 0, 0, 0, 0]` is an 18-byte packet;
its 8-byte prefix is shorter than the declared total, yet `_parse_packet`
does not return None: it successfully "parses" the truncated prefix as
command 2 with an empty payload (acting on partial bytes).  The 9-byte
prefix is instead reported as a checksum mismatch (the corruption path),
not as need-more-data. -/
theorem c3_counterexample :
    (SIYIMK15.build_packet 2 [0, 14, 0, 0, 0, 0, 0, 0, 0, 0]).length = 18 ∧
    SIYIMK15.parse_packet ((SIYIMK15.build_packet 2 [0, 14, 0, 0, 0, 0, 0, 0, 0, 0]).take 8) =
      some (2, []) ∧
    SIYIMK15.parse_packetR ((SIYIMK15.build_packet 2 [0, 14, 0, 0, 0, 0, 0, 0, 0, 0]).take 9) =
      .corrupt := by
  decide

namespace JetsonCamera

/-- Enqueue step of `JetsonCamera._capture_loop` for the
`queue.Queue(maxsize=30)` frame queue: `put_nowait` appends when the
queue is not full; on `queue.Full` the loop removes the oldest entry
with `get_nowait` and appends the new frame.  A frame is modelled as a
`(frame, timestamp)` pair of naturals. -/
def capture_enqueue (frame_queue : List (Nat × Nat)) (item : Nat × Nat) : List (Nat × Nat) :=
  if frame_queue.length < 30 then frame_queue ++ [item]
  else frame_queue.drop 1 ++ [item]

/-- `JetsonCamera.get_latest_frame`: repeatedly `get_nowait` until the
queue is empty, keeping only the last obtained entry; returns that entry
(or `none` on an empty queue) and leaves the queue drained. -/
def get_latest_frame (frame_queue : List (Nat × Nat)) :
    Option (Nat × Nat) × List (Nat × Nat) :=
  (frame_queue.getLast?, [])

end JetsonCamera

/-- C4 (amended): the frame queue holds up to 30 pending frames; when it
is full the oldest unread frame (the queue head), never the newest, is
dropped; and `get_latest_frame` drains the queue and returns only the
most recent frame, so two captures with no read in between yield only
the second frame when `get_latest_frame` is finally called. -/
theorem c4_drop_oldest_policy (q : List (Nat × Nat)) (x y : Nat × Nat) :
    (JetsonCamera.get_latest_frame
        (JetsonCamera.capture_enqueue (JetsonCamera.capture_enqueue q x) y)).1 = some y ∧
    (JetsonCamera.get_latest_frame
        (JetsonCamera.capture_enqueue (JetsonCamera.capture_enqueue q x) y)).2 = [] ∧
    (q.length ≤ 30 → (JetsonCamera.capture_enqueue q x).length ≤ 30) ∧
    (q.length = 30 → JetsonCamera.capture_enqueue q x = q.drop 1 ++ [x]) := by
  refine ⟨?_, rfl, ?_, ?_⟩
  · rw [JetsonCamera.get_latest_frame]
    show (JetsonCamera.capture_enqueue (JetsonCamera.capture_enqueue q x) y).getLast? = some y
    rw [JetsonCamera.capture_enqueue]
    by_cases h : (JetsonCamera.capture_enqueue q x).length < 30
    · rw [if_pos h, List.getLast?_concat]
    · rw [if_neg h, List.getLast?_concat]
  · intro hle
    rw [JetsonCamera.capture_enqueue]
    by_cases h : q.length < 30
    · rw [if_pos h]; simp; omega
    · rw [if_neg h]; simp; omega
  · intro h30
    rw [JetsonCamera.capture_enqueue, if_neg (by omega)]

/-- Witness for C4 at a concrete input: a full queue of 30 frames, then
two more captures; the enqueue keeps the bound, drops the oldest, and
`get_latest_frame` returns only the newest frame. -/
theorem c4_drop_oldest_policy_witness :
    (JetsonCamera.get_latest_frame
        (JetsonCamera.capture_enqueue
          (JetsonCamera.capture_enqueue (List.replicate 30 (0, 0)) (1, 1)) (2, 2))).1 =
      some (2, 2) ∧
    (JetsonCamera.capture_enqueue (List.replicate 30 (0, 0)) (1, 1)).length ≤ 30 ∧
    JetsonCamera.capture_enqueue (List.replicate 30 (0, 0)) (1, 1) =
      (List.replicate 30 (0, 0)).drop 1 ++ [(1, 1)] :=
  ⟨(c4_drop_oldest_policy (List.replicate 30 (0, 0)) (1, 1) (2, 2)).1,
   (c4_drop_oldest_policy (List.replicate 30 (0, 0)) (1, 1) (2, 2)).2.2.1 (by decide),
   (c4_drop_oldest_policy (List.replicate 30 (0, 0)) (1, 1) (2, 2)).2.2.2 (by decide)⟩

/-- Counterexample to C4 as stated: starting from an empty queue, two
captures with no intervening `get_latest_frame` leave **two** pending
frames in the queue (`queue.Queue(maxsize=30)` buffers up to 30), so the
frame source does queue more than one pending frame, and the first
captured frame is not discarded at capture time. -/
theorem c4_counterexample :
    (JetsonCamera.capture_enqueue (JetsonCamera.capture_enqueue [] (1, 0)) (2, 1)).length = 2 ∧
    JetsonCamera.capture_enqueue (JetsonCamera.capture_enqueue [] (1, 0)) (2, 1) =
      [(1, 0), (2, 1)] := by
  decide

namespace JetsonTelemetry

/-- Value stored in a telemetry snapshot: a number (of the opaque
floating-point carrier `α`), a string, or a nested mapping (the
`temperatures` sub-dictionary). -/
inductive TVal (α : Type) where
  | num (x : α) : TVal α
  | str (s : String) : TVal α
  | dict (m : List (String × α)) : TVal α
deriving DecidableEq, Repr

/-- Python `d[k] = v` on an insertion-ordered dictionary modelled as an
association list with unique keys: replace in place if the key exists,
else append. -/
def dict_set (d : List (String × β)) (k : String) (v : β) : List (String × β) :=
  if (d.map Prod.fst).contains k then
    d.map (fun p => if p.1 = k then (k, v) else p)
  else d ++ [(k, v)]

/-- Python `d.update(other)`: `d[k] = v` for each pair of `other` in
order. -/
def dict_update (d other : List (String × β)) : List (String × β) :=
  other.foldl (fun acc p => dict_set acc p.1 p.2) d

/-- Python `d.get(k)` / key lookup. -/
def dict_lookup (d : List (String × β)) (k : String) : Option β :=
  (d.find? (fun p => p.1 = k)).map Prod.snd

/-- The default `metrics` list of `JetsonTelemetry.__init__`. -/
def default_metrics : List String :=
  ["cpu_usage", "memory_usage", "gpu_usage", "temperature", "network_stats", "camera_fps"]

/-- `JetsonTelemetry._collect_telemetry`, parameterised by the values the
individual collectors return on this tick (each `_get_*` catches its own
exceptions and returns `{}` — the empty list here — when it fails) and by
the opaque float semantics (`round2` stands for `round(x, 2)`).  The
snapshot starts as `{'timestamp': ..., 'device': 'jetson'}`; each enabled
collector's result is merged with `dict.update`; `temperatures` is stored
as a nested dict; `camera_fps`/`stream_fps` are always set when enabled
(they cannot fail). -/
def collect_telemetry (round2 : α → α) (metrics : List String) (timestamp : α)
    (cpu mem gpu net : List (String × TVal α)) (temps : List (String × α))
    (camera_fps stream_fps : α) : List (String × TVal α) :=
  let d0 : List (String × TVal α) := [("timestamp", .num timestamp), ("device", .str "jetson")]
  let d1 := if metrics.contains "cpu_usage" then dict_update d0 cpu else d0
  let d2 := if metrics.contains "memory_usage" then dict_update d1 mem else d1
  let d3 := if metrics.contains "gpu_usage" then dict_update d2 gpu else d2
  let d4 := if metrics.contains "temperature" then dict_set d3 "temperatures" (.dict temps)
    else d3
  let d5 := if metrics.contains "network_stats" then dict_update d4 net else d4
  if metrics.contains "camera_fps" then
    dict_set (dict_set d5 "camera_fps" (.num (round2 camera_fps))) "stream_fps"
      (.num (round2 stream_fps))
  else d5

/-- A registered telemetry callback, identified by `oid`; `raises` marks
a callback that raises when invoked. -/
structure Observer where
  oid : Nat
  raises : Bool
deriving DecidableEq, Repr

/-- The notification loop of `JetsonTelemetry._telemetry_loop`
(`for callback in self.callbacks: try: callback(data) except: log`),
returning the ids of the callbacks invoked, in order.  A raising
callback is caught by the `except` and neither stops the loop nor
prevents later callbacks, so the recursion continues regardless of
`raises`. -/
def notify_callbacks : List Observer → List Nat
  | [] => []
  | c :: rest => c.oid :: notify_callbacks rest

end JetsonTelemetry

/-- C5 (amended): when every individual metric collector fails (each
returns `{}`), the snapshot built by `_collect_telemetry` under the
default metrics contains exactly the keys `timestamp`, `device`,
`temperatures` (an empty nested dict), `camera_fps` and `stream_fps`;
the fields of the failed collectors (e.g. `cpu_usage_percent`) are
absent rather than populated with defaults.  Every registered observer
is still notified exactly once per tick, in registration order, even
when callbacks raise. -/
theorem c5_snapshot_defaulting :
    (∀ (α : Type) (round2 : α → α) (ts cam st : α),
      (JetsonTelemetry.collect_telemetry round2 JetsonTelemetry.default_metrics ts
          [] [] [] [] [] cam st).map Prod.fst =
        ["timestamp", "device", "temperatures", "camera_fps", "stream_fps"] ∧
      JetsonTelemetry.dict_lookup (JetsonTelemetry.collect_telemetry round2
          JetsonTelemetry.default_metrics ts [] [] [] [] [] cam st) "cpu_usage_percent" =
        none ∧
      JetsonTelemetry.dict_lookup (JetsonTelemetry.collect_telemetry round2
          JetsonTelemetry.default_metrics ts [] [] [] [] [] cam st) "temperatures" =
        some (.dict [])) ∧
    (∀ cbs : List JetsonTelemetry.Observer,
      JetsonTelemetry.notify_callbacks cbs = cbs.map JetsonTelemetry.Observer.oid) := by
  constructor
  · intro α round2 ts cam st
    refine ⟨rfl, rfl, rfl⟩
  · intro cbs
    induction cbs with
    | nil => rfl
    | cons c rest ih => rw [JetsonTelemetry.notify_callbacks, ih, List.map_cons]

/-- Counterexample to C5 as stated: with every collector failing, the
snapshot does not contain the documented fields of the failed
collectors at all — `cpu_usage_percent`, `memory_percent`,
`gpu_usage_percent` and `bytes_sent_mb` are absent (`none`), not
populated with default values. -/
theorem c5_counterexample :
    JetsonTelemetry.dict_lookup (JetsonTelemetry.collect_telemetry (fun x : Nat => x)
        JetsonTelemetry.default_metrics 0 [] [] [] [] [] 0 0) "cpu_usage_percent" = none ∧
    JetsonTelemetry.dict_lookup (JetsonTelemetry.collect_telemetry (fun x : Nat => x)
        JetsonTelemetry.default_metrics 0 [] [] [] [] [] 0 0) "memory_percent" = none ∧
    JetsonTelemetry.dict_lookup (JetsonTelemetry.collect_telemetry (fun x : Nat => x)
        JetsonTelemetry.default_metrics 0 [] [] [] [] [] 0 0) "gpu_usage_percent" = none ∧
    JetsonTelemetry.dict_lookup (JetsonTelemetry.collect_telemetry (fun x : Nat => x)
        JetsonTelemetry.default_metrics 0 [] [] [] [] [] 0 0) "bytes_sent_mb" = none := by
  decide

namespace SIYIMK15

/-- A registered response callback, identified by `cid`; `raises` marks a
callback that raises when invoked. -/
structure Callback where
  cid : Nat
  raises : Bool
deriving DecidableEq, Repr

/-- The serial handle `self.ser` (when not `None`). -/
structure SerialPort where
  is_open : Bool
deriving DecidableEq, Repr

/-- Observable steps of `send_command`, in completion order: the serial
write of a packet, and the insertion of a callback into
`self.response_callbacks`. -/
inductive SendEvent where
  | wrote (packet : List Nat) : SendEvent
  | registered (command : Nat) : SendEvent
deriving DecidableEq, Repr

/-- Python dict assignment `self.response_callbacks[command] = callback`
on an insertion-ordered dictionary modelled as an association list with
unique keys. -/
def register_callback (t : List (Nat × Callback)) (k : Nat) (v : Callback) :
    List (Nat × Callback) :=
  if (t.map Prod.fst).contains k then t.map (fun p => if p.1 = k then (k, v) else p)
  else t ++ [(k, v)]

/-- Python `command in self.response_callbacks` /
`self.response_callbacks[command]`. -/
def lookup_callback : List (Nat × Callback) → Nat → Option Callback
  | [], _ => none
  | (k, v) :: rest, c => if k = c then some v else lookup_callback rest c

/-- Python `del self.response_callbacks[command]` (keys are unique, so
removing every entry with the key models the dict deletion). -/
def delete_callback : List (Nat × Callback) → Nat → List (Nat × Callback)
  | [], _ => []
  | (k, v) :: rest, c => if k = c then delete_callback rest c else (k, v) :: delete_callback rest c

/-- `SIYIMK15.send_command`, sequenced as in the source: guard on the
serial handle being present and open (else return False with nothing
done); build the packet and write it (`write_raises` models
`self.ser.write` raising, caught by the `except` — return False with the
callback not registered); only after the write has completed, register
the supplied callback; then return True.  The result is
`(return value, new callback table, events in completion order)`. -/
def send_command (ser : Option SerialPort) (write_raises : Bool)
    (response_callbacks : List (Nat × Callback)) (command : Nat) (data : List Nat)
    (callback : Option Callback) :
    Bool × List (Nat × Callback) × List SendEvent :=
  match ser with
  | none => (false, response_callbacks, [])
  | some s =>
    if ¬ s.is_open then (false, response_callbacks, [])
    else if write_raises then (false, response_callbacks, [])
    else
      match callback with
      | some cb =>
          (true, register_callback response_callbacks command cb,
           [.wrote (build_packet command data), .registered command])
      | none => (true, response_callbacks, [.wrote (build_packet command data)])

/-- `SIYIMK15._handle_response` restricted to its effect on the
correlation table: when the command has a registered callback, that
callback is invoked once with the data — recorded here as a
`(cid, data)` pair, recorded even when the callback raises, since the
`try/except` catches the exception — and the entry is deleted in the
`finally` block; otherwise nothing happens.  (The telemetry branch for
command `0x0031` updates `last_telemetry` only and never touches the
table.)  Returns `(invocations, new table)`. -/
def handle_response (response_callbacks : List (Nat × Callback)) (command : Nat)
    (data : List Nat) : List (Nat × List Nat) × List (Nat × Callback) :=
  match lookup_callback response_callbacks command with
  | some cb => ([(cb.cid, data)], delete_callback response_callbacks command)
  | none => ([], response_callbacks)

/-- Connection state of a `SIYIMK15` instance: the loop flag, whether
the serial port is open, and the outstanding correlation table. -/
structure Session where
  running : Bool
  ser_open : Bool
  response_callbacks : List (Nat × Callback)
deriving DecidableEq, Repr

/-- `SIYIMK15.disconnect`: clears `self.running`, joins the heartbeat
thread and closes the serial port.  It does not touch
`self.response_callbacks`. -/
def disconnect (s : Session) : Session :=
  { running := false, ser_open := false, response_callbacks := s.response_callbacks }

end SIYIMK15

/-- Looking up a command after deleting it finds nothing. -/
theorem lookup_delete_callback (t : List (Nat × SIYIMK15.Callback)) (c : Nat) :
    SIYIMK15.lookup_callback (SIYIMK15.delete_callback t c) c = none := by
  induction t with
  | nil => rfl
  | cons p rest ih =>
    obtain ⟨k, v⟩ := p
    rw [SIYIMK15.delete_callback]
    by_cases hk : k = c
    · rw [if_pos hk]; exact ih
    · rw [if_neg hk, SIYIMK15.lookup_callback, if_neg hk]; exact ih

/-- C6 (amended): on the success path of `send_command` with a callback
supplied, the serial write completes first and the callback is
registered immediately afterwards — after the write, before
`send_command` returns True.  (A response arriving between the write
completing and the registration would therefore find no callback
registered; the claimed registered-before-write ordering does not hold,
see `c6_counterexample`.) -/
theorem c6_callback_registration_order (s : SIYIMK15.SerialPort)
    (t : List (Nat × SIYIMK15.Callback)) (command : Nat) (d : List Nat)
    (cb : SIYIMK15.Callback) (hopen : s.is_open = true) :
    SIYIMK15.send_command (some s) false t command d (some cb) =
      (true, SIYIMK15.register_callback t command cb,
       [.wrote (SIYIMK15.build_packet command d), .registered command]) := by
  rw [SIYIMK15.send_command]
  rw [if_neg (by rw [hopen]; simp)]
  rfl

/-- Witness for C6 at a concrete input: an open port, command 1, no
payload, callback 7. -/
theorem c6_callback_registration_order_witness :
    SIYIMK15.send_command (some ⟨true⟩) false [] 1 [] (some ⟨7, false⟩) =
      (true, SIYIMK15.register_callback [] 1 ⟨7, false⟩,
       [.wrote (SIYIMK15.build_packet 1 []), .registered 1]) :=
  c6_callback_registration_order ⟨true⟩ [] 1 [] ⟨7, false⟩ rfl

/-- Counterexample to C6 as stated: in the event trace of a successful
`send_command` with a callback, the first completed event is the write,
and at that moment the registration has not happened yet — the
registration event only follows the write.  So there is a moment after
the write has completed at which the supplied callback is not yet
registered. -/
theorem c6_counterexample :
    (SIYIMK15.send_command (some ⟨true⟩) false [] 1 [] (some ⟨7, false⟩)).2.2.take 1 =
      [.wrote (SIYIMK15.build_packet 1 [])] ∧
    SIYIMK15.SendEvent.registered 1 ∉
      ((SIYIMK15.send_command (some ⟨true⟩) false [] 1 [] (some ⟨7, false⟩)).2.2.take 1) ∧
    SIYIMK15.SendEvent.registered 1 ∈
      (SIYIMK15.send_command (some ⟨true⟩) false [] 1 [] (some ⟨7, false⟩)).2.2 := by
  decide

/-- C7 (amended): command/response correlation is single-shot — a
matching decoded response invokes the registered callback exactly once
(also when the callback raises: the invocation is recorded and the entry
deleted in the `finally` block) and removes the entry, so a second
response with the same command id invokes nothing.  Entries are **not**
removed on session teardown: `disconnect` leaves the correlation table
unchanged (see `c7_counterexample`). -/
theorem c7_single_shot_correlation :
    (∀ (t : List (Nat × SIYIMK15.Callback)) (command : Nat) (d d' : List Nat)
        (cb : SIYIMK15.Callback),
      SIYIMK15.lookup_callback t command = some cb →
      (SIYIMK15.handle_response t command d).1 = [(cb.cid, d)] ∧
      SIYIMK15.lookup_callback (SIYIMK15.handle_response t command d).2 command = none ∧
      (SIYIMK15.handle_response (SIYIMK15.handle_response t command d).2 command d').1 = []) ∧
    (∀ s : SIYIMK15.Session,
      (SIYIMK15.disconnect s).response_callbacks = s.response_callbacks) := by
  constructor
  · intro t command d d' cb hlk
    have h1 : SIYIMK15.handle_response t command d =
        ([(cb.cid, d)], SIYIMK15.delete_callback t command) := by
      rw [SIYIMK15.handle_response, hlk]
    have h2 : SIYIMK15.lookup_callback (SIYIMK15.handle_response t command d).2 command =
        none := by
      rw [h1]
      exact lookup_delete_callback t command
    refine ⟨by rw [h1], h2, ?_⟩
    rw [SIYIMK15.handle_response, h2]
  · intro s
    rfl

/-- Witness for C7 at a concrete input: a table holding command 5 with a
raising callback 9; the response invokes it once, removes it, a second
response invokes nothing, and `disconnect` leaves a table unchanged. -/
theorem c7_single_shot_correlation_witness :
    (SIYIMK15.handle_response [(5, ⟨9, true⟩)] 5 [1]).1 = [(9, [1])] ∧
    SIYIMK15.lookup_callback (SIYIMK15.handle_response [(5, ⟨9, true⟩)] 5 [1]).2 5 = none ∧
    (SIYIMK15.handle_response (SIYIMK15.handle_response [(5, ⟨9, true⟩)] 5 [1]).2 5 [2]).1 =
      [] ∧
    (SIYIMK15.disconnect ⟨true, true, [(5, ⟨9, true⟩)]⟩).response_callbacks =
      [(5, ⟨9, true⟩)] :=
  ⟨(c7_single_shot_correlation.1 [(5, ⟨9, true⟩)] 5 [1] [2] ⟨9, true⟩ (by decide)).1,
   (c7_single_shot_correlation.1 [(5, ⟨9, true⟩)] 5 [1] [2] ⟨9, true⟩ (by decide)).2.1,
   (c7_single_shot_correlation.1 [(5, ⟨9, true⟩)] 5 [1] [2] ⟨9, true⟩ (by decide)).2.2,
   c7_single_shot_correlation.2 ⟨true, true, [(5, ⟨9, true⟩)]⟩⟩

/-- Counterexample to C7 as stated: `disconnect` completes the teardown
(`running` is cleared, the port closed) but the registered entry for
command 5 is still in the correlation table — entries are not removed on
session teardown. -/
theorem c7_counterexample :
    (SIYIMK15.disconnect ⟨true, true, [(5, ⟨9, false⟩)]⟩).running = false ∧
    (SIYIMK15.disconnect ⟨true, true, [(5, ⟨9, false⟩)]⟩).ser_open = false ∧
    (SIYIMK15.disconnect ⟨true, true, [(5, ⟨9, false⟩)]⟩).response_callbacks =
      [(5, ⟨9, false⟩)] ∧
    (SIYIMK15.disconnect ⟨true, true, [(5, ⟨9, false⟩)]⟩).response_callbacks ≠ [] := by
  decide

/-- C10: `send_command` error atomicity.  With the serial handle absent
or not open it returns False and leaves the correlation table unchanged
with no write performed; and when the write itself raises it returns
False with the supplied callback not registered — the table is only
modified after a successful write. -/
theorem c10_send_command_atomicity :
    (∀ (write_raises : Bool) (t : List (Nat × SIYIMK15.Callback)) (command : Nat)
        (d : List Nat) (cb : Option SIYIMK15.Callback),
      SIYIMK15.send_command none write_raises t command d cb = (false, t, [])) ∧
    (∀ (s : SIYIMK15.SerialPort) (write_raises : Bool) (t : List (Nat × SIYIMK15.Callback))
        (command : Nat) (d : List Nat) (cb : Option SIYIMK15.Callback),
      s.is_open = false →
      SIYIMK15.send_command (some s) write_raises t command d cb = (false, t, [])) ∧
    (∀ (s : SIYIMK15.SerialPort) (t : List (Nat × SIYIMK15.Callback)) (command : Nat)
        (d : List Nat) (cb : Option SIYIMK15.Callback),
      SIYIMK15.send_command (some s) true t command d cb = (false, t, [])) := by
  refine ⟨fun _ _ _ _ _ => rfl, ?_, ?_⟩
  · intro s write_raises t command d cb hclosed
    obtain ⟨b⟩ := s
    simp only [SIYIMK15.SerialPort.is_open] at hclosed
    subst hclosed
    cases cb <;> cases write_raises <;> rfl
  · intro s t command d cb
    obtain ⟨b⟩ := s
    cases b <;> cases cb <;> rfl

/-- Witness for C10 at concrete inputs: no handle, a closed handle, and
a raising write, each with a callback supplied and a nonempty table. -/
theorem c10_send_command_atomicity_witness :
    SIYIMK15.send_command none false [(3, ⟨4, false⟩)] 1 [2] (some ⟨7, false⟩) =
      (false, [(3, ⟨4, false⟩)], []) ∧
    SIYIMK15.send_command (some ⟨false⟩) false [(3, ⟨4, false⟩)] 1 [2] (some ⟨7, false⟩) =
      (false, [(3, ⟨4, false⟩)], []) ∧
    SIYIMK15.send_command (some ⟨true⟩) true [(3, ⟨4, false⟩)] 1 [2] (some ⟨7, false⟩) =
      (false, [(3, ⟨4, false⟩)], []) :=
  ⟨c10_send_command_atomicity.1 false [(3, ⟨4, false⟩)] 1 [2] (some ⟨7, false⟩),
   c10_send_command_atomicity.2.1 ⟨false⟩ false [(3, ⟨4, false⟩)] 1 [2] (some ⟨7, false⟩) rfl,
   c10_send_command_atomicity.2.2 ⟨true⟩ [(3, ⟨4, false⟩)] 1 [2] (some ⟨7, false⟩)⟩

namespace SIYIMKController

/-- The fragmentation step of `SIYIMKController.send_video_frame`: the
JPEG byte string is sent whole when it fits into
`max_packet_size = 1400`; otherwise it is cut into
`num_packets = ceil(len / 1400)` slices `frame_data[start:end]` with
`start = i * 1400` and `end = min((i + 1) * 1400, len)`.  The returned
list is the exact sequence of datagrams passed to `sendto`, one
`sendto` per fragment. -/
def fragment_data (frame_data : List Nat) : List (List Nat) :=
  if frame_data.length ≤ 1400 then [frame_data]
  else (List.range ((frame_data.length + 1400 - 1) / 1400)).map
    (fun i => pySlice frame_data (i * 1400) (min ((i + 1) * 1400) frame_data.length))

/-- `SIYIMKController.send_video_frame`, with the JPEG encoding treated
as an opaque step (`frame_data` is the encoded byte string,
`cv2.imencode`'s output).  Returns `none` (the `return False` path) when
not connected or without a video socket, otherwise the sequence of
datagrams sent. -/
def send_video_frame (connected : Bool) (has_video_socket : Bool) (frame_data : List Nat) :
    Option (List (List Nat)) :=
  if ¬ connected ∨ ¬ has_video_socket then none
  else some (fragment_data frame_data)

/-- `SIYIMKController.control_gimbal`'s clamping:
`max(-100, min(100, speed))`. -/
def clamp_speed (speed : Int) : Int := max (-100) (min 100 speed)

/-- `struct.pack('<b', x)` for one signed byte: defined exactly on
`[-128, 127]` (struct.error otherwise), producing the two's-complement
byte. -/
def pack_signed_byte (x : Int) : Option Nat :=
  if -128 ≤ x ∧ x ≤ 127 then some (x % 256).toNat else none

/-- `struct.pack('<bb', yaw_speed, pitch_speed)`. -/
def pack_speeds (yaw_speed pitch_speed : Int) : Option (List Nat) :=
  match pack_signed_byte yaw_speed, pack_signed_byte pitch_speed with
  | some a, some b => some [a, b]
  | _, _ => none

/-- `SIYIMKController.control_gimbal`: returns False when not connected;
otherwise clamps both speeds into `[-100, 100]`, packs them as signed
bytes (the `except` branch catching a packing failure would return
False), builds the `CMD_GIMBAL_SPEED = 0x07` packet and sends it.
Returns `(return value, packet sent)`. -/
def control_gimbal (connected : Bool) (yaw_speed pitch_speed : Int) :
    Bool × Option (List Nat) :=
  if ¬ connected then (false, none)
  else
    match pack_speeds (clamp_speed yaw_speed) (clamp_speed pitch_speed) with
    | some data => (true, some (SIYIProtocol.build_packet 0x07 data))
    | none => (false, none)

end SIYIMKController

/-- Concatenating the loop's slices reconstructs the prefix of the data
covered by the slices. -/
theorem fragment_flatten_take (d : List Nat) (m : Nat) :
    ((List.range m).map
      (fun i => pySlice d (i * 1400) (min ((i + 1) * 1400) d.length))).flatten =
      d.take (min (m * 1400) d.length) := by
  induction m with
  | zero => simp
  | succ m ih =>
    rw [List.range_succ, List.map_append, List.flatten_append, ih]
    have hmc : m * 1400 ≤ (m + 1) * 1400 := Nat.mul_le_mul_right 1400 (by omega)
    rcases le_or_lt d.length (m * 1400) with hle | hlt
    · have h1 : min (m * 1400) d.length = d.length := by omega
      have h2 : min ((m + 1) * 1400) d.length = d.length := by omega
      simp only [List.map_cons, List.map_nil, List.flatten_cons, List.flatten_nil,
        List.append_nil]
      rw [h1, pySlice, h2, List.take_length, List.drop_eq_nil_of_le hle, List.append_nil]
    · have h1 : min (m * 1400) d.length = m * 1400 := by omega
      simp only [List.map_cons, List.map_nil, List.flatten_cons, List.flatten_nil,
        List.append_nil]
      rw [h1, pySlice, List.drop_take]
      have harg : min ((m + 1) * 1400) d.length =
          m * 1400 + (min ((m + 1) * 1400) d.length - m * 1400) := by omega
      have hsplit : List.take (min ((m + 1) * 1400) d.length) d =
          List.take (m * 1400) d ++
            List.take (min ((m + 1) * 1400) d.length - m * 1400) (List.drop (m * 1400) d) := by
        rw [← List.take_add, ← harg]
      rw [hsplit]

/-- C8: video-frame fragmentation bound.  On a connected transport with
a video socket, `send_video_frame` sends the JPEG byte string as the
fragment sequence in which every fragment is at most 1400 bytes, the
fragments concatenated in send order equal the full JPEG byte string,
and the number of `sendto` calls is exactly the fragment count
`max(1, ceil(len / 1400))` — each fragment is sent exactly once, none is
retried. -/
theorem c8_video_fragmentation (frame_data : List Nat) :
    SIYIMKController.send_video_frame true true frame_data =
      some (SIYIMKController.fragment_data frame_data) ∧
    (∀ f ∈ SIYIMKController.fragment_data frame_data, f.length ≤ 1400) ∧
    (SIYIMKController.fragment_data frame_data).flatten = frame_data ∧
    (SIYIMKController.fragment_data frame_data).length =
      max 1 ((frame_data.length + 1399) / 1400) := by
  refine ⟨rfl, ?_, ?_, ?_⟩
  · intro f hf
    rw [SIYIMKController.fragment_data] at hf
    by_cases h : frame_data.length ≤ 1400
    · rw [if_pos h] at hf
      simp at hf
      subst hf
      omega
    · rw [if_neg h] at hf
      simp only [List.mem_map, List.mem_range] at hf
      obtain ⟨i, _, rfl⟩ := hf
      rw [pySlice, List.length_drop, List.length_take]
      have : (i + 1) * 1400 = i * 1400 + 1400 := by ring
      omega
  · rw [SIYIMKController.fragment_data]
    by_cases h : frame_data.length ≤ 1400
    · rw [if_pos h]
      simp
    · rw [if_neg h]
      rw [fragment_flatten_take]
      have hcover : frame_data.length ≤ (frame_data.length + 1400 - 1) / 1400 * 1400 := by
        omega
      have hmin : min ((frame_data.length + 1400 - 1) / 1400 * 1400) frame_data.length =
          frame_data.length := by omega
      rw [hmin, List.take_length]
  · rw [SIYIMKController.fragment_data]
    by_cases h : frame_data.length ≤ 1400
    · rw [if_pos h]
      simp
      omega
    · rw [if_neg h]
      rw [List.length_map, List.length_range]
      omega

/-- C9: gimbal speed clamping is total.  For every pair of integer
inputs — including values outside `[-100, 100]` — the clamped speeds lie
in `[-100, 100]`, packing them as signed bytes always succeeds, and
`control_gimbal` on a connected controller returns True having sent the
`CMD_GIMBAL_SPEED` packet whose payload holds exactly the two clamped
values as two's-complement bytes. -/
theorem c9_gimbal_clamp_total (yaw_speed pitch_speed : Int) :
    -100 ≤ SIYIMKController.clamp_speed yaw_speed ∧
    SIYIMKController.clamp_speed yaw_speed ≤ 100 ∧
    -100 ≤ SIYIMKController.clamp_speed pitch_speed ∧
    SIYIMKController.clamp_speed pitch_speed ≤ 100 ∧
    SIYIMKController.pack_speeds (SIYIMKController.clamp_speed yaw_speed)
        (SIYIMKController.clamp_speed pitch_speed) =
      some [(SIYIMKController.clamp_speed yaw_speed % 256).toNat,
            (SIYIMKController.clamp_speed pitch_speed % 256).toNat] ∧
    SIYIMKController.control_gimbal true yaw_speed pitch_speed =
      (true, some (SIYIProtocol.build_packet 0x07
        [(SIYIMKController.clamp_speed yaw_speed % 256).toNat,
         (SIYIMKController.clamp_speed pitch_speed % 256).toNat])) := by
  have hy1 : -100 ≤ SIYIMKController.clamp_speed yaw_speed := le_max_left _ _
  have hy2 : SIYIMKController.clamp_speed yaw_speed ≤ 100 :=
    max_le (by norm_num) (min_le_left _ _)
  have hp1 : -100 ≤ SIYIMKController.clamp_speed pitch_speed := le_max_left _ _
  have hp2 : SIYIMKController.clamp_speed pitch_speed ≤ 100 :=
    max_le (by norm_num) (min_le_left _ _)
  have hpacky : SIYIMKController.pack_signed_byte (SIYIMKController.clamp_speed yaw_speed) =
      some ((SIYIMKController.clamp_speed yaw_speed % 256).toNat) := by
    rw [SIYIMKController.pack_signed_byte, if_pos ⟨by omega, by omega⟩]
  have hpackp : SIYIMKController.pack_signed_byte (SIYIMKController.clamp_speed pitch_speed) =
      some ((SIYIMKController.clamp_speed pitch_speed % 256).toNat) := by
    rw [SIYIMKController.pack_signed_byte, if_pos ⟨by omega, by omega⟩]
  have hpack : SIYIMKController.pack_speeds (SIYIMKController.clamp_speed yaw_speed)
      (SIYIMKController.clamp_speed pitch_speed) =
      some [(SIYIMKController.clamp_speed yaw_speed % 256).toNat,
            (SIYIMKController.clamp_speed pitch_speed % 256).toNat] := by
    rw [SIYIMKController.pack_speeds, hpacky, hpackp]
  refine ⟨hy1, hy2, hp1, hp2, hpack, ?_⟩
  rw [SIYIMKController.control_gimbal, if_neg (by simp), hpack]
